import Mathlib

/-!
Verification of the asymptotic classification engine of the
complexity-hints repository (tools/recurrence_solver.py and
tools/complexity_adapter.py) against its design specification.

The Python code delegates symbolic computation to SymPy, which the spec
treats as an external collaborator (spec section 6: parse, simplify,
limit, rsolve, polynomial degree).  The development below embeds the
repository code shallowly:

* numbers arising in the ladder and in closed forms live in the ring
  QSqrt5 of elements a + b * sqrt 5 with rational a, b (this covers the
  golden ratio, the Binet closed form values, and every ladder constant);
* a symbolic expression whose asymptotic behaviour the code inspects is
  represented by its growth monomial: coeff * n^npow * log(n)^logpow *
  base^n * (n!)^factpow (the type GrowthExpr below); the engine
  operations limit, is_constant, is_polynomial and degree extraction are
  modelled on this normal form by their mathematically specified
  behaviour (spec section 6 requires the engine to compute the true
  limit as n tends to infinity);
* floating point comparisons of the form d < log_b a - 1/100 in the
  divide-and-conquer analyzer are rendered in exact arithmetic over the
  rationals (b^(100 d - 1) versus a^100), which agrees with the float
  computation away from ties of width about 1e-15;
* Python dictionaries become association lists, fallible Python calls
  become Option / Except values, and an exception that the source does
  not catch becomes an Except.error escaping the handler.
-/

/-- Elements a + b * sqrt 5 with rational coordinates.  This ring contains
every constant the classifier manipulates: the rationals, the golden
ratio (1 + sqrt 5)/2, and the coefficient 1/sqrt 5 = sqrt 5 / 5 of the
Binet closed form. -/
structure QSqrt5 where
  a : ℚ
  b : ℚ
  deriving DecidableEq, Repr

def QSqrt5.ofRat (q : ℚ) : QSqrt5 := ⟨q, 0⟩

instance : OfNat QSqrt5 0 := ⟨⟨0, 0⟩⟩

instance : OfNat QSqrt5 1 := ⟨⟨1, 0⟩⟩

instance : Add QSqrt5 := ⟨fun x y => ⟨x.a + y.a, x.b + y.b⟩⟩

instance : Neg QSqrt5 := ⟨fun x => ⟨-x.a, -x.b⟩⟩

instance : Sub QSqrt5 := ⟨fun x y => ⟨x.a - y.a, x.b - y.b⟩⟩

instance : Mul QSqrt5 := ⟨fun x y => ⟨x.a * y.a + 5 * (x.b * y.b), x.a * y.b + x.b * y.a⟩⟩

/-- Multiplicative inverse in QSqrt5: the conjugate divided by the norm.
Maps 0 to 0. -/
def QSqrt5.inv (x : QSqrt5) : QSqrt5 :=
  let d : ℚ := x.a * x.a - 5 * (x.b * x.b)
  if d = 0 then ⟨0, 0⟩ else ⟨x.a / d, -x.b / d⟩

def QSqrt5.div (x y : QSqrt5) : QSqrt5 := x * y.inv

def QSqrt5.pow (x : QSqrt5) : ℕ → QSqrt5
  | 0 => 1
  | k + 1 => x * x.pow k

instance : Pow QSqrt5 ℕ := ⟨QSqrt5.pow⟩

/-- Decides 0 < a + b * sqrt 5 by sign analysis: when b = 0 this is
0 < a; when b > 0 it holds unless a < 0 and a^2 >= 5 b^2; when b < 0 it
requires a > 0 and a^2 > 5 b^2. -/
def QSqrt5.isPos (x : QSqrt5) : Bool :=
  if x.b = 0 then decide (0 < x.a)
  else if 0 < x.b then decide (0 ≤ x.a) || decide (x.a * x.a < 5 * (x.b * x.b))
  else decide (0 < x.a) && decide (5 * (x.b * x.b) < x.a * x.a)

def QSqrt5.isNeg (x : QSqrt5) : Bool := (-x).isPos

/-- The real number a + b * sqrt 5 denoted by an element of QSqrt5. -/
noncomputable def QSqrt5.toReal (x : QSqrt5) : ℝ := x.a + x.b * Real.sqrt 5

/-- The golden ratio (1 + sqrt 5) / 2 as used by the complexity adapter. -/
def phiQ : QSqrt5 := ⟨1/2, 1/2⟩

/-- The conjugate root (1 - sqrt 5) / 2 of the Fibonacci characteristic
polynomial. -/
def psiQ : QSqrt5 := ⟨1/2, -1/2⟩

/-- The constant 1 / sqrt 5 = sqrt 5 / 5 appearing in the Binet closed
form returned by rsolve for the Fibonacci recurrence. -/
def invSqrt5Q : QSqrt5 := ⟨0, 1/5⟩

/-- Result of the engine operation limit(expr, n, oo) as the classifier
inspects it: exactly zero, a finite value, or infinite.  The constructor
top stands for any infinite or unsigned-infinite limit (oo, -oo, zoo);
the recurrence solver code treats all of these the same way (skip the
rung, the bound does not hold). -/
inductive LimVal where
  | zero : LimVal
  | fin : QSqrt5 → LimVal
  | top : LimVal
  deriving DecidableEq

/-- Growth monomial coeff * n^npow * log(n)^logpow * base^n * (n!)^factpow.
Every reference expression on the classifier ladder, every ratio the
classifier takes a limit of, and the dominant term of every closed form
appearing in the claims has this shape.  The engine operations used by
tools/recurrence_solver.py (limit, is_constant, degree extraction) are
modelled on this normal form. -/
structure GrowthExpr where
  coeff : QSqrt5
  npow : ℚ
  logpow : ℤ
  base : QSqrt5
  factpow : ℤ
  deriving DecidableEq, Repr

/-- Quotient of two growth monomials, as formed by expr / candidate in
extract_complexity and f / g in the comparison routines. -/
def GrowthExpr.div (g r : GrowthExpr) : GrowthExpr :=
  ⟨g.coeff * r.coeff.inv, g.npow - r.npow, g.logpow - r.logpow,
   g.base * r.base.inv, g.factpow - r.factpow⟩

/-- Models the SymPy test expr.is_constant() used at the top of
extract_complexity: the monomial does not depend on n. -/
def GrowthExpr.isConstantB (g : GrowthExpr) : Bool :=
  decide (g.npow = 0) && decide (g.logpow = 0) && decide (g.base = ⟨1, 0⟩) &&
    decide (g.factpow = 0)

/-- Models the engine operation limit(g, n, oo) on a growth monomial with
positive base (spec section 6 requires the engine to resolve such limits
exactly): a factorial factor dominates, then an exponential base away
from 1, then the power of n, then the power of log n; a pure constant has
itself as limit. -/
def GrowthExpr.limitAtTop (g : GrowthExpr) : LimVal :=
  if 0 < g.factpow then .top
  else if g.factpow < 0 then .zero
  else if (g.base - 1).isPos then .top
  else if ((1 : QSqrt5) - g.base).isPos then .zero
  else if 0 < g.npow then .top
  else if g.npow < 0 then .zero
  else if 0 < g.logpow then .top
  else if g.logpow < 0 then .zero
  else .fin g.coeff

/-- The limit is a finite strictly positive number: the condition
lim.is_number and lim.is_positive and lim.is_finite from the candidate
scan in extract_complexity. -/
def LimVal.isFinPos : LimVal → Bool
  | .fin c => c.isPos
  | _ => false

/-- The candidate ladder of extract_complexity, lines 350 to 367 of
tools/recurrence_solver.py, in source order.  Entry 13 is translated
exactly as written in the source: the expression paired with the label
"O(phi^n)" is the CONSTANT (1 + sqrt(5))/2, not that constant raised to
the n-th power. -/
def ladder : List (GrowthExpr × String) :=
  [ (⟨1, 0, 0, ⟨1, 0⟩, 0⟩, "O(1)"),
    (⟨1, 0, 1, ⟨1, 0⟩, 0⟩, "O(log(n))"),
    (⟨1, 0, 2, ⟨1, 0⟩, 0⟩, "O(log^2(n))"),
    (⟨1, 1/2, 0, ⟨1, 0⟩, 0⟩, "O(sqrt(n))"),
    (⟨1, 1, 0, ⟨1, 0⟩, 0⟩, "O(n)"),
    (⟨1, 1, 1, ⟨1, 0⟩, 0⟩, "O(n*log(n))"),
    (⟨1, 1, 2, ⟨1, 0⟩, 0⟩, "O(n*log^2(n))"),
    (⟨1, 3/2, 0, ⟨1, 0⟩, 0⟩, "O(n^(3/2))"),
    (⟨1, 2, 0, ⟨1, 0⟩, 0⟩, "O(n^2)"),
    (⟨1, 2, 1, ⟨1, 0⟩, 0⟩, "O(n^2*log(n))"),
    (⟨1, 3, 0, ⟨1, 0⟩, 0⟩, "O(n^3)"),
    (⟨1, 4, 0, ⟨1, 0⟩, 0⟩, "O(n^4)"),
    (⟨1, 0, 0, ⟨3/2, 0⟩, 0⟩, "O(1.5^n)"),
    (⟨phiQ, 0, 0, ⟨1, 0⟩, 0⟩, "O(phi^n)"),
    (⟨1, 0, 0, ⟨2, 0⟩, 0⟩, "O(2^n)"),
    (⟨1, 0, 0, ⟨1, 0⟩, 1⟩, "O(n!)") ]

/-- The candidate scan of extract_complexity: walk the ladder in order
and return the label of the first candidate whose ratio limit is a
finite positive number; a zero, infinite or otherwise unusable limit
moves on to the next candidate. -/
def scanLadder (g : GrowthExpr) : Option String :=
  ladder.findSome? fun p => if (g.div p.1).limitAtTop.isFinPos then some p.2 else none

/-- Models extract_degree_via_limit, lines 412 to 431: the limit of
log(Abs(expr))/log(n) as n tends to infinity.  For a growth monomial
with nonzero coefficient this limit is finite exactly when there is no
factorial and no exponential factor, and then equals the power of n; in
every other case the limit is infinite or undefined and the function
returns None. -/
def extractDegreeViaLimit (g : GrowthExpr) : Option ℚ :=
  if g.factpow = 0 ∧ g.base = ⟨1, 0⟩ ∧ g.coeff ≠ 0 then some g.npow else none

/-- Renders an integer part and a two digit fractional part; stand-in for
the Python float format specifier .2f on the non-integer degree branch
(rounding ties, which Python resolves half-to-even, do not arise in any
claim). -/
def fmt2 (d : ℚ) : String :=
  let m : ℤ := Int.floor (d * 100 + 1/2)
  let sign : String := if m < 0 then "-" else ""
  let k : ℕ := m.natAbs
  sign ++ toString (k / 100) ++ "." ++ (if k % 100 < 10 then "0" else "") ++
    toString (k % 100)

/-- The degree-based label of extract_complexity lines 393 to 398:
integer degrees print as O(n^d) with d an integer, other degrees with
two decimal places. -/
def degreeLabel (d : ℚ) : String :=
  if d.den = 1 then "O(n^" ++ toString d.num ++ ")" else "O(n^" ++ fmt2 d ++ ")"

/-- Schematic rendering of a growth monomial, standing in for the SymPy
str() of the expression in the final fallback f-string O({expr}). -/
def QSqrt5.str (x : QSqrt5) : String :=
  "(" ++ toString x.a ++ " + " ++ toString x.b ++ "*sqrt(5))"

/-- Printed form of a growth monomial (stand-in for SymPy printing; the
exact text only matters in the fallback branches of the classifier). -/
def GrowthExpr.print (g : GrowthExpr) : String :=
  g.coeff.str ++ "*n**(" ++ toString g.npow ++ ")*log(n)**(" ++ toString g.logpow ++
    ")*" ++ g.base.str ++ "**n*factorial(n)**(" ++ toString g.factpow ++ ")"

/-- The leading-term fallback of extract_complexity, lines 400 to 406:
ask the engine for the leading term LT(expr, n) and wrap it in O(...);
if that raises (modelled by none) print the expression itself.  The
oracle lt stands for the engine call str(LT(expr, n)), whose value the
asymptotic model does not determine. -/
def leadingTermFallback (lt : GrowthExpr → Option String) (g : GrowthExpr) : String :=
  match lt g with
  | some s => "O(" ++ s ++ ")"
  | none => "O(" ++ g.print ++ ")"

/-- Shallow embedding of extract_complexity, lines 336 to 409 of
tools/recurrence_solver.py: constants are O(1); otherwise scan the
candidate ladder; otherwise extract a degree via the log-ratio limit;
otherwise fall back to the leading term.  Each failing engine call in
the source is caught and control moves to the next stage, so the
function is total. -/
def extract_complexity (lt : GrowthExpr → Option String) (g : GrowthExpr) : String :=
  if g.isConstantB then "O(1)"
  else
    match scanLadder g with
    | some lbl => lbl
    | none =>
      match extractDegreeViaLimit g with
      | some d => degreeLabel d
      | none => leadingTermFallback lt g

/-- Shallow embedding of verify_big_o, lines 470 to 490: f = O(g) holds
iff the limit of f/g is a finite nonnegative number (zero included), and
the witness constant is that limit. -/
def verify_big_o (f g : GrowthExpr) : Bool × Option QSqrt5 :=
  match (f.div g).limitAtTop with
  | .zero => (true, some 0)
  | .fin c => if c.isNeg then (false, none) else (true, some c)
  | .top => (false, none)

/-- Shallow embedding of verify_big_theta, lines 516 to 536: f = Theta(g)
holds iff the limit c of f/g is finite and strictly positive, with
reported bracketing constants c/2 and 2c. -/
def verify_big_theta (f g : GrowthExpr) : Bool × Option (QSqrt5 × QSqrt5) :=
  match (f.div g).limitAtTop with
  | .fin c =>
      if c.isPos then (true, some (QSqrt5.ofRat (1/2) * c, QSqrt5.ofRat 2 * c))
      else (false, none)
  | _ => (false, none)

/-- The dominant asymptotic monomial of the Binet closed form
(phi^n - psi^n)/sqrt(5) that rsolve returns for the Fibonacci
recurrence: coefficient 1/sqrt(5), exponential base the golden ratio.
Since Abs(psi) < 1, every ladder-ratio limit and the log-degree limit of
the full closed form coincide with those of this monomial. -/
def binetGrowth : GrowthExpr := ⟨invSqrt5Q, 0, 0, phiQ, 0⟩

/-- Exact value of the Binet closed form at the integer n, computed in
the ring QSqrt5: substitution of n into the closed form followed by
simplification, as done by the solver and verifier. -/
def binetQ (n : ℕ) : QSqrt5 := (phiQ ^ n - psiQ ^ n) * invSqrt5Q

/-- Decides q < log_b(a) in exact arithmetic: for 0 < a and 1 < b this
holds iff b^(q.num) < a^(q.den).  This renders the float comparison
f_degree < critical_exp_float - epsilon of solve_divide_conquer (which
computes float(log(a, b).evalf())) without rounding error; the two
agree except at ties thinner than double precision. -/
def qLtLogB (q a b : ℚ) : Bool := decide (b ^ q.num < a ^ q.den)

/-- Decides log_b(a) < q in exact arithmetic, the mirror image of
qLtLogB. -/
def logLtQB (a b q : ℚ) : Bool := decide (a ^ q.den < b ^ q.num)

/-- The trial degrees of the fallback loop in get_polynomial_degree,
line 549 of tools/recurrence_solver.py. -/
def degreeTrialList : List ℚ := [0, 1/2, 1, 3/2, 2, 5/2, 3, 4, 5]

/-- Shallow embedding of get_polynomial_degree, lines 539 to 556, on a
nonzero growth monomial.  The structural test expr.is_polynomial(n)
holds iff the monomial is coeff * n^k with k a natural number; failing
that, the loop tries each d in degreeTrialList and keeps the first whose
ratio limit expr/n^d is a finite nonzero constant, which for a monomial
happens iff the monomial is a pure power of n with npow = d.  Everything
else yields None. -/
def getPolynomialDegree (g : GrowthExpr) : Option ℚ :=
  if g.base = ⟨1, 0⟩ ∧ g.factpow = 0 ∧ g.logpow = 0 ∧ g.coeff ≠ 0 ∧
      (((g.npow.den = 1 ∧ 0 ≤ g.npow) ∨ g.npow ∈ degreeTrialList)) then
    some g.npow
  else none

/-- Shallow embedding of get_log_power, lines 559 to 579: the power of
log(n) in the driving term, recovered in the source by matching the
printed expression against the substrings log(n)**k and log(n).  On a
growth monomial the match returns the absolute value of the log
exponent, and 0 when there is no log factor. -/
def getLogPower (g : GrowthExpr) : ℕ :=
  if g.logpow = 0 then 0 else g.logpow.natAbs

/-- The complexity string produced by solve_divide_conquer, one
constructor per f-string template in the source: nPowCrit a b prints
O(n^{log_b(a)}) (case 1); nPowCritLog a b k prints
O(n^{log_b(a)} * log(n)^k), with the exponent omitted when k = 1
(case 2); ofDriving g prints O({f_n}) (case 3); nPowFloat a b prints
O(n^{p:.4f}) with p the float value of log_b(a) (Akra-Bazzi fallback). -/
inductive DCClass where
  | nPowCrit : ℚ → ℚ → DCClass
  | nPowCritLog : ℚ → ℚ → ℕ → DCClass
  | ofDriving : GrowthExpr → DCClass
  | nPowFloat : ℚ → ℚ → DCClass
  deriving DecidableEq, Repr

/-- The result record of solve_divide_conquer: success flag, closed form
(always absent), complexity class, Master Theorem case if any, method
marker for the Akra-Bazzi fallback, verification flag and error. -/
structure DCResult where
  success : Bool
  closed_form : Option String
  complexity : DCClass
  masterCase : Option ℕ
  method : Option String
  verified : Bool
  error : Option String
  deriving DecidableEq, Repr

/-- Shallow embedding of the case analysis of solve_divide_conquer,
lines 172 to 222 of tools/recurrence_solver.py, for subproblem count a,
division factor b and driving term g.  With the driving term polynomial
of degree d: case 1 when d < log_b(a) - 1/100, case 2 when
the absolute difference is below 1/100 (complexity carries the log
exponent getLogPower + 1), case 3 otherwise; with a non-polynomial
driving term, the simplified Akra-Bazzi estimate n^p marked
verified = False.  The float tolerance comparisons are rendered exactly
by qLtLogB and logLtQB. -/
def solve_divide_conquer (a b : ℚ) (g : GrowthExpr) : DCResult :=
  match getPolynomialDegree g with
  | some d =>
    if qLtLogB (d + 1/100) a b then
      ⟨true, none, .nPowCrit a b, some 1, none, true, none⟩
    else if logLtQB a b (d + 1/100) && qLtLogB (d - 1/100) a b then
      ⟨true, none, .nPowCritLog a b (getLogPower g + 1), some 2, none, true, none⟩
    else
      ⟨true, none, .ofDriving g, some 3, none, true, none⟩
  | none => ⟨true, none, .nPowFloat a b, none, some "akra_bazzi", false, none⟩

/-- Shallow embedding of verify_big_omega, lines 493 to 513: f = Omega(g)
holds when the limit of f/g diverges (reported constant infinite,
rendered here as LimVal.top) or is finite and strictly positive. -/
def verify_big_omega (f g : GrowthExpr) : Bool × Option LimVal :=
  match (f.div g).limitAtTop with
  | .top => (true, some .top)
  | .fin c => if c.isPos then (true, some (.fin c)) else (false, none)
  | .zero => (false, none)

/-- A closed-form expression as the linear solver and verifier see it:
its dominant growth monomial (for classification) together with its
exact value at each integer (for substitution checks), both derived
from the same engine expression. -/
structure ClosedForm where
  growth : GrowthExpr
  val : ℤ → QSqrt5

/-- The engine calls the handlers delegate to, modelled as oracles:
parseC is parse_complexity (an Except.error carries the message of the
raised exception), rsolve is sympy.rsolve on the recurrence built from
the coefficient list, driving term and initial conditions (None when no
closed form is found), and lt is str(LT(expr, n)) used by the last
classifier fallback. -/
structure Engine where
  parseC : String → Except String ClosedForm
  rsolve : List ℚ → ClosedForm → List (ℤ × ℚ) → Option ClosedForm
  lt : GrowthExpr → Option String

/-- Models the Python built-in int() applied to a JSON object key. -/
def pyIntOfString (s : String) : Option ℤ := s.toInt?

/-- The base-case conversion loop init_conds[T(int(k))] = sympify(v):
converts each key with int(), raising (Except.error) at the first key
that is not an integer literal. -/
def convertBase : List (String × ℚ) → Except String (List (ℤ × ℚ))
  | [] => .ok []
  | (k, v) :: rest =>
    match pyIntOfString k with
    | none => .error ("ValueError: invalid literal for int with base 10: " ++ k)
    | some i =>
      match convertBase rest with
      | .error m => .error m
      | .ok tl => .ok ((i, v) :: tl)

/-- A JSON request: every field optional, mirroring dict.get access in
the source.  rtype is the type field. -/
structure Request where
  rtype : Option String := none
  coeffs : Option (List ℚ) := none
  base : Option (List (String × ℚ)) := none
  f_n : Option String := none
  a : Option ℚ := none
  b : Option ℚ := none
  recurrence : Option String := none
  solution : Option String := none
  f : Option String := none
  g : Option String := none
  bound_type : Option String := none

def Request.getType (r : Request) : String := r.rtype.getD "linear"

def Request.getCoeffs (r : Request) : List ℚ := r.coeffs.getD [1]

/-- Default base cases of the linear solver: the dict literal with the
single entry mapping key "0" to 0 (line 103). -/
def Request.getBaseLin (r : Request) : List (String × ℚ) := r.base.getD [("0", 0)]

/-- Default base cases of the verifier: the empty dict (line 236). -/
def Request.getBaseVerify (r : Request) : List (String × ℚ) := r.base.getD []

def Request.getFnLin (r : Request) : String := r.f_n.getD "0"

def Request.getFnDC (r : Request) : String := r.f_n.getD "n"

def Request.getA (r : Request) : ℚ := r.a.getD 2

def Request.getB (r : Request) : ℚ := r.b.getD 2

def Request.getSolution (r : Request) : String := r.solution.getD ""

def Request.getF (r : Request) : String := r.f.getD "n"

def Request.getG (r : Request) : String := r.g.getD "n"

def Request.getBound (r : Request) : String := r.bound_type.getD "Theta"

/-- A JSON response: success flag plus the optional fields the handlers
populate.  The divide-and-conquer payload is carried as a DCResult; the
latex rendering and the numeric comparison constants, which no claim
mentions, are omitted. -/
structure Response where
  success : Bool
  error : Option String := none
  closed_form : Option String := none
  complexity : Option String := none
  verified : Option Bool := none
  verified_base_cases : Option Bool := none
  dc : Option DCResult := none
  bound_type : Option String := none
  holds : Option Bool := none

/-- A failure response as built throughout the source: success False,
an error message, and nothing else populated. -/
def failResp (msg : String) : Response := { success := false, error := some msg }

/-- The tolerance 1e-10 of verify_solution_numerically. -/
def residualTol : ℚ := 1 / 10 ^ 10

/-- The magnitude of x exceeds the tolerance: x > tol or x < -tol. -/
def exceedsTol (x : QSqrt5) : Bool :=
  (x - QSqrt5.ofRat residualTol).isPos || ((-x) - QSqrt5.ofRat residualTol).isPos

/-- Value of the recurrence residual T(n) - f(n) - sum coeffs[i]*T(n-1-i)
at n = t, with T replaced by the candidate closed form sol. -/
def residualAt (sol : ℤ → QSqrt5) (coeffs : List ℚ) (f : ℤ → QSqrt5) (t : ℤ) : QSqrt5 :=
  sol t - f t -
    coeffs.enum.foldl (fun acc p => acc + QSqrt5.ofRat p.2 * sol (t - 1 - (p.1 : ℤ))) 0

/-- Shallow embedding of verify_solution_numerically, lines 582 to 607.
Line 586 sets order = len(init_conds), the number of DECLARED BASE
CASES, which coincides with the number of coefficients only for an
exactly determined solve.  The substitution loop at lines 593 to 595
replaces T(n-offset) only for offset up to order, so a nonzero
coefficient at a position at or beyond order (index initLen or later in
the coefficient list) leaves an unevaluated T symbol in the residual;
complex(N(result)) then raises on the very first trial index and the
surrounding except returns False.  When every such coefficient is zero
(in particular whenever there are at least as many base cases as
coefficients), all terms are substituted and the check is the tolerance
test over the trial indices order+1 .. order+9.  (The source checks
simplify(check) != 0 first and then the numeric magnitude; in exact
arithmetic the two tests together are exactly the tolerance test.) -/
def verify_solution_numerically (sol : ℤ → QSqrt5) (coeffs : List ℚ) (f : ℤ → QSqrt5)
    (initLen : ℕ) : Bool :=
  if (coeffs.drop initLen).all (fun c => decide (c = 0)) then
    (List.range 9).all fun j =>
      ! exceedsTol (residualAt sol coeffs f ((initLen : ℤ) + 1 + (j : ℤ)))
  else
    false

/-- Shallow embedding of solve_linear_recurrence, lines 93 to 144.  The
driving term parse failure is caught locally and yields a structured
failure with prefix Invalid f(n).  The base-case conversion at lines
117 to 120 sits OUTSIDE every try block of the source, so a key that
int() rejects is translated as an Except.error escaping the handler.
Inside the try block, rsolve returning None yields the unsolvable
failure; a found solution is classified and numerically verified. -/
def solve_linear_recurrence (eng : Engine) (r : Request) : Except String Response :=
  match eng.parseC r.getFnLin with
  | .error e => .ok (failResp ("Invalid f(n): " ++ e))
  | .ok fn =>
    match convertBase r.getBaseLin with
    | .error e => .error e
    | .ok init =>
      match eng.rsolve r.getCoeffs fn init with
      | none => .ok (failResp ("rsolve returned None - recurrence may be unsolvable"))
      | some sol =>
        .ok { success := true,
              closed_form := some sol.growth.print,
              complexity := some (extract_complexity eng.lt sol.growth),
              verified := some (verify_solution_numerically sol.val r.getCoeffs fn.val
                init.length),
              error := none }

/-- Shallow embedding of verify_recurrence, lines 227 to 272.  All work
happens inside one try block, so both a solution parse failure and a bad
base-case key produce structured failures carrying the exception text.
The base-case check compares the substituted solution value against the
declared value by exact equality (simplify(actual - expected) == 0), and
the overall flag is the conjunction over all declared entries. -/
def verify_recurrence (eng : Engine) (r : Request) : Response :=
  match eng.parseC r.getSolution with
  | .error e => failResp e
  | .ok sol =>
    match convertBase r.getBaseVerify with
    | .error e => failResp e
    | .ok init =>
      { success := true,
        verified_base_cases :=
          some (init.all fun p => decide (sol.val p.1 = QSqrt5.ofRat p.2)),
        complexity := some (extract_complexity eng.lt sol.growth),
        error := none }

/-- Shallow embedding of compare_complexities, lines 275 to 333,
restricted to the fields the claims mention (holds and bound_type);
parse failures inside the try block produce structured failures. -/
def compare_complexities (eng : Engine) (r : Request) : Response :=
  match eng.parseC r.getF with
  | .error e => failResp e
  | .ok fc =>
    match eng.parseC r.getG with
    | .error e => failResp e
    | .ok gc =>
      if r.getBound = "O" then
        { success := true, bound_type := some "O",
          holds := some (verify_big_o fc.growth gc.growth).1, error := none }
      else if r.getBound = "Omega" then
        { success := true, bound_type := some "Omega",
          holds := some (verify_big_omega fc.growth gc.growth).1, error := none }
      else
        { success := true, bound_type := some "Theta",
          holds := some (verify_big_theta fc.growth gc.growth).1, error := none }

/-- Wraps a divide-and-conquer result into the response record. -/
def dcToResponse (d : DCResult) : Response :=
  { success := d.success, error := d.error, dc := some d }

/-- Shallow embedding of solve_divide_conquer as a request handler,
lines 147 to 224.  The driving term parse failure is caught locally; the
computation float(log(a, b).evalf()) at line 167 sits outside the try
block and raises for a <= 0, b <= 0 or b = 1, translated as an
escaping Except.error; otherwise the case analysis runs. -/
def solve_divide_conquer_handler (eng : Engine) (r : Request) : Except String Response :=
  match eng.parseC r.getFnDC with
  | .error e => .ok (failResp ("Invalid f(n): " ++ e))
  | .ok fn =>
    if r.getA ≤ 0 ∨ r.getB ≤ 0 ∨ r.getB = 1 then
      .error ("TypeError: cannot convert complex log to float")
    else
      .ok (dcToResponse (solve_divide_conquer r.getA r.getB fn.growth))

/-- Shallow embedding of the dispatch in main, lines 618 to 629: a
missing type field defaults to linear; unknown types produce a
structured failure.  An Except.error models a Python exception crossing
the request boundary (the source has no try around the dispatch). -/
def mainDispatch (eng : Engine) (r : Request) : Except String Response :=
  if r.getType = "linear" then solve_linear_recurrence eng r
  else if r.getType = "divide_conquer" then solve_divide_conquer_handler eng r
  else if r.getType = "verify" then .ok (verify_recurrence eng r)
  else if r.getType = "compare" then .ok (compare_complexities eng r)
  else .ok (failResp ("Unknown type: " ++ r.getType))

/-- The i-th ladder rung expression (defaulting to the constant 1 off
the end of the list). -/
def rungExpr (i : ℕ) : GrowthExpr := (ladder.getD i (⟨1, 0, 0, ⟨1, 0⟩, 0⟩, "")).1

/-- The i-th ladder rung label. -/
def rungLabel (i : ℕ) : String := (ladder.getD i (⟨1, 0, 0, ⟨1, 0⟩, 0⟩, "")).2

/-- The growth monomial n. -/
def nGrowth : GrowthExpr := ⟨1, 1, 0, ⟨1, 0⟩, 0⟩

/-- The growth monomial 2^n. -/
def twoPowGrowth : GrowthExpr := ⟨1, 0, 0, ⟨2, 0⟩, 0⟩

/-- The growth monomial n^5 (off the ladder, polynomial). -/
def nFifthGrowth : GrowthExpr := ⟨1, 5, 0, ⟨1, 0⟩, 0⟩

/-- The identity closed form T(n) = n, used as a concrete engine value. -/
def cfLin : ClosedForm := ⟨nGrowth, fun t => QSqrt5.ofRat t⟩

/-- A concrete engine whose parser always returns the closed form n and
whose other oracles return nothing. -/
def engLin : Engine := ⟨fun _ => .ok cfLin, fun _ _ _ => none, fun _ => none⟩

/-- A verify request whose declared base case T(2) = 2 matches cfLin. -/
def reqVerify2 : Request := { rtype := some "verify", solution := some "n", base := some [("2", 2)] }

/-- A verify request with an empty base-case mapping. -/
def reqVerifyEmpty : Request := { rtype := some "verify", solution := some "n", base := some [] }

/-- A verify request with the base field omitted altogether, which the
source defaults to the empty dict. -/
def reqVerifyNoBase : Request := { rtype := some "verify", solution := some "n" }

/-- A linear request whose base-case mapping carries the non-numeric key
x: int() raises on it at a point of solve_linear_recurrence not covered
by any try block. -/
def reqBadBase : Request :=
  { rtype := some "linear", coeffs := some [1], base := some [("x", 0)], f_n := some "0" }

/-- The empty request: every field missing. -/
def reqEmpty : Request := {}

/-- The closed form T(n) = n viewed as a solution function. -/
def solIdQ : ℤ → QSqrt5 := fun t => QSqrt5.ofRat t

/-- The zero driving term as a value function. -/
def zeroFunQ : ℤ → QSqrt5 := fun _ => 0

/-- A step candidate solution: 0 up to index 1 and 1 from index 2 on.
Against the recurrence T(n) = T(n-1) its only nonvanishing residual is
at index 2. -/
def solStep : ℤ → QSqrt5 := fun t => if t ≤ 1 then 0 else 1

set_option maxRecDepth 8000

/-- For positive rational x, y the real comparison x^q < y (right hand
side a rational power with rational exponent) is equivalent to the
integer-exponent rational comparison x^q.num < y^q.den. -/
theorem rat_rpow_lt_iff (x y q : ℚ) (hx : 0 < x) (hy : 0 < y) :
    ((x : ℝ) ^ (q : ℝ) < (y : ℝ)) ↔ (x ^ q.num < y ^ q.den) := by
  have hxR : (0 : ℝ) < (x : ℝ) := by exact_mod_cast hx
  have hyR : (0 : ℝ) < (y : ℝ) := by exact_mod_cast hy
  have hden : q.den ≠ 0 := q.den_nz
  rw [← pow_lt_pow_iff_left₀ (le_of_lt (Real.rpow_pos_of_pos hxR _)) (le_of_lt hyR) hden]
  have h2 : ((x : ℝ) ^ (q : ℝ)) ^ q.den = (x : ℝ) ^ (q.num : ℤ) := by
    rw [← Real.rpow_natCast ((x : ℝ) ^ (q : ℝ)) q.den, ← Real.rpow_mul (le_of_lt hxR),
      ← Real.rpow_intCast]
    congr 1
    rw [Rat.cast_def]
    have hd : ((q.den : ℝ)) ≠ 0 := by exact_mod_cast hden
    field_simp
  rw [h2]
  have h3 : (x : ℝ) ^ (q.num : ℤ) = (((x ^ q.num : ℚ)) : ℝ) := by push_cast; ring
  have h4 : ((y : ℝ)) ^ q.den = (((y ^ q.den : ℚ)) : ℝ) := by push_cast; ring
  rw [h3, h4]
  exact_mod_cast Iff.rfl

/-- Mirror image of rat_rpow_lt_iff: y < x^q is equivalent to
y^q.den < x^q.num. -/
theorem rat_lt_rpow_iff (x y q : ℚ) (hx : 0 < x) (hy : 0 < y) :
    ((y : ℝ) < (x : ℝ) ^ (q : ℝ)) ↔ (y ^ q.den < x ^ q.num) := by
  have hxR : (0 : ℝ) < (x : ℝ) := by exact_mod_cast hx
  have hyR : (0 : ℝ) < (y : ℝ) := by exact_mod_cast hy
  have hden : q.den ≠ 0 := q.den_nz
  rw [← pow_lt_pow_iff_left₀ (le_of_lt hyR) (le_of_lt (Real.rpow_pos_of_pos hxR _)) hden]
  have h2 : ((x : ℝ) ^ (q : ℝ)) ^ q.den = (x : ℝ) ^ (q.num : ℤ) := by
    rw [← Real.rpow_natCast ((x : ℝ) ^ (q : ℝ)) q.den, ← Real.rpow_mul (le_of_lt hxR),
      ← Real.rpow_intCast]
    congr 1
    rw [Rat.cast_def]
    have hd : ((q.den : ℝ)) ≠ 0 := by exact_mod_cast hden
    field_simp
  rw [h2]
  have h3 : (x : ℝ) ^ (q.num : ℤ) = (((x ^ q.num : ℚ)) : ℝ) := by push_cast; ring
  have h4 : ((y : ℝ)) ^ q.den = (((y ^ q.den : ℚ)) : ℝ) := by push_cast; ring
  rw [h3, h4]
  exact_mod_cast Iff.rfl

/-- The decidable comparison qLtLogB agrees with the real comparison
q < log_b(a) it renders. -/
theorem qLtLogB_iff (q a b : ℚ) (ha : 0 < a) (hb : 1 < b) :
    qLtLogB q a b = true ↔ (q : ℝ) < Real.logb b a := by
  have hbR : (1 : ℝ) < (b : ℝ) := by exact_mod_cast hb
  have haR : (0 : ℝ) < (a : ℝ) := by exact_mod_cast ha
  rw [qLtLogB, decide_eq_true_iff, Real.lt_logb_iff_rpow_lt hbR haR]
  exact (rat_rpow_lt_iff b a q (lt_trans one_pos hb) ha).symm

/-- The decidable comparison logLtQB agrees with the real comparison
log_b(a) < q it renders. -/
theorem logLtQB_iff (a b q : ℚ) (ha : 0 < a) (hb : 1 < b) :
    logLtQB a b q = true ↔ Real.logb b a < (q : ℝ) := by
  have hbR : (1 : ℝ) < (b : ℝ) := by exact_mod_cast hb
  have haR : (0 : ℝ) < (a : ℝ) := by exact_mod_cast ha
  rw [logLtQB, decide_eq_true_iff, Real.logb_lt_iff_lt_rpow hbR haR]
  exact (rat_lt_rpow_iff b a q (lt_trans one_pos hb) ha).symm

/-- Claim C3: for every divide-and-conquer request whose driving term
is a polynomial of degree d (as detected by get_polynomial_degree),
with critical exponent p = log_b(a) and tolerance 1/100: if
d < p - 1/100 the result is Master Theorem Case 1 with class n^p; if
the absolute difference is below 1/100 it is Case 2 with class
n^p * log(n)^(k+1) where k = getLogPower of the driving term (0 when no
log factor is present); and if d > p + 1/100 it is Case 3 with the
driving term as its own reported class. -/
theorem c3_master_theorem_cases (a b : ℚ) (g : GrowthExpr) (d : ℚ)
    (ha : 0 < a) (hb : 1 < b) (hd : getPolynomialDegree g = some d) :
    ((d : ℝ) < Real.logb b a - 1/100 →
      solve_divide_conquer a b g = ⟨true, none, .nPowCrit a b, some 1, none, true, none⟩) ∧
    (|(d : ℝ) - Real.logb b a| < 1/100 →
      solve_divide_conquer a b g =
        ⟨true, none, .nPowCritLog a b (getLogPower g + 1), some 2, none, true, none⟩) ∧
    (Real.logb b a + 1/100 < (d : ℝ) →
      solve_divide_conquer a b g = ⟨true, none, .ofDriving g, some 3, none, true, none⟩) := by
  refine ⟨fun h1 => ?_, fun h2 => ?_, fun h3 => ?_⟩
  · have hq : qLtLogB (d + 1/100) a b = true := by
      rw [qLtLogB_iff _ a b ha hb]
      push_cast
      linarith
    simp only [solve_divide_conquer, hd]
    rw [hq]
    simp
  · have habs := abs_lt.mp h2
    have hq1 : qLtLogB (d + 1/100) a b = false := by
      cases hE : qLtLogB (d + 1/100) a b with
      | false => rfl
      | true =>
        have := (qLtLogB_iff _ a b ha hb).mp hE
        push_cast at this
        linarith [habs.2]
    have hq2 : logLtQB a b (d + 1/100) = true := by
      rw [logLtQB_iff a b _ ha hb]
      push_cast
      linarith [habs.1]
    have hq3 : qLtLogB (d - 1/100) a b = true := by
      rw [qLtLogB_iff _ a b ha hb]
      push_cast
      linarith [habs.2]
    simp only [solve_divide_conquer, hd]
    rw [hq1, hq2, hq3]
    simp
  · have hq1 : qLtLogB (d + 1/100) a b = false := by
      cases hE : qLtLogB (d + 1/100) a b with
      | false => rfl
      | true =>
        have := (qLtLogB_iff _ a b ha hb).mp hE
        push_cast at this
        linarith
    have hq3 : qLtLogB (d - 1/100) a b = false := by
      cases hE : qLtLogB (d - 1/100) a b with
      | false => rfl
      | true =>
        have := (qLtLogB_iff _ a b ha hb).mp hE
        push_cast at this
        linarith
    simp only [solve_divide_conquer, hd]
    rw [hq1, hq3]
    simp

/-- Witness for claim C3 at the merge-sort instance a = 2, b = 2,
driving term n: degree d = 1 equals p = log_2(2) = 1, so Case 2 with
class n * log(n). -/
theorem c3_witness :
    solve_divide_conquer 2 2 nGrowth =
      ⟨true, none, .nPowCritLog 2 2 (getLogPower nGrowth + 1), some 2, none, true, none⟩ := by
  refine (c3_master_theorem_cases 2 2 nGrowth 1 (by norm_num) (by norm_num)
    (by with_unfolding_all decide)).2.1 ?_
  have hlog : Real.logb ((2:ℚ) : ℝ) ((2:ℚ) : ℝ) = 1 := by
    push_cast
    exact Real.logb_self_eq_one (by norm_num)
  rw [hlog]
  norm_num

/-- Claim C4: for every divide-and-conquer request whose driving term is
not a polynomial, the result is the simplified Akra-Bazzi estimate:
class n^p with p = log_b(a), no Master Theorem case, the akra_bazzi
method marker, verified = false, and no closed form; no weighting
integral enters the computation. -/
theorem c4_akra_bazzi (a b : ℚ) (g : GrowthExpr) (hd : getPolynomialDegree g = none) :
    solve_divide_conquer a b g =
      ⟨true, none, .nPowFloat a b, none, some "akra_bazzi", false, none⟩ := by
  simp only [solve_divide_conquer, hd]

/-- Witness for claim C4 at a = 2, b = 2 with the non-polynomial driving
term 2^n. -/
theorem c4_witness :
    solve_divide_conquer 2 2 twoPowGrowth =
      ⟨true, none, .nPowFloat 2 2, none, some "akra_bazzi", false, none⟩ :=
  c4_akra_bazzi 2 2 twoPowGrowth (by with_unfolding_all decide)

/-- Claim C1 (code bug): for the Fibonacci request the engine closed
form (Binet) does evaluate to 0, 1, 1, 2, 3, 5, 8 at n = 0..6, but
classification does NOT report the golden-ratio exponential class: the
ladder entry labelled O(phi^n) is the bare constant (1+sqrt(5))/2, so
the scan and the degree extraction both fail on the Binet form and
extract_complexity lands in the leading-term fallback, whatever the
leading-term oracle returns. -/
theorem c1_fib_solve :
    (binetQ 0 = QSqrt5.ofRat 0 ∧ binetQ 1 = QSqrt5.ofRat 1 ∧ binetQ 2 = QSqrt5.ofRat 1 ∧
     binetQ 3 = QSqrt5.ofRat 2 ∧ binetQ 4 = QSqrt5.ofRat 3 ∧ binetQ 5 = QSqrt5.ofRat 5 ∧
     binetQ 6 = QSqrt5.ofRat 8) ∧
    ∀ lt, extract_complexity lt binetGrowth = leadingTermFallback lt binetGrowth := by
  constructor
  · with_unfolding_all decide
  · intro lt
    have hc : binetGrowth.isConstantB = false := by with_unfolding_all decide
    have hs : scanLadder binetGrowth = none := by with_unfolding_all decide
    have hd : extractDegreeViaLimit binetGrowth = none := by with_unfolding_all decide
    simp [extract_complexity, hc, hs, hd]

/-- Witness for claim C1 with the leading-term oracle that always
fails. -/
theorem c1_witness :
    extract_complexity (fun _ => none) binetGrowth =
      leadingTermFallback (fun _ => none) binetGrowth :=
  c1_fib_solve.2 (fun _ => none)

/-- Claim C2 (code bug): because ladder entry 13 is the constant
(1+sqrt(5))/2 instead of the power phi^n, the golden-ratio rung breaks
the claimed ladder order: classify applied to rung 13 returns the label
of rung 0 (O(1)); compare(rung 0, rung 13, Theta) holds even though
rung 0 comes before rung 13; and compare(rung 12, rung 13, O) fails
even though rung 12 comes before rung 13.  For every pair of rungs that
avoids entry 13 the claim does hold: the scan classifies the larger
rung as itself, labels differ, Theta fails and O holds. -/
theorem c2_golden_rung :
    (∀ lt, extract_complexity lt (rungExpr 13) = rungLabel 0) ∧
    (verify_big_theta (rungExpr 0) (rungExpr 13)).1 = true ∧
    (verify_big_o (rungExpr 12) (rungExpr 13)).1 = false ∧
    ((List.range 16).all fun j => (List.range j).all fun i =>
      (i == 13 || j == 13) ||
        (decide (scanLadder (rungExpr j) = some (rungLabel j)) &&
         decide (rungLabel j ≠ rungLabel i) &&
         decide ((verify_big_theta (rungExpr i) (rungExpr j)).1 = false) &&
         decide ((verify_big_o (rungExpr i) (rungExpr j)).1 = true))) = true := by
  refine ⟨fun lt => ?_, ?_, ?_, ?_⟩
  · have hc : (rungExpr 13).isConstantB = true := by with_unfolding_all decide
    simp only [extract_complexity, hc, if_true]
    with_unfolding_all decide
  · with_unfolding_all decide
  · with_unfolding_all decide
  · with_unfolding_all decide

/-- Witness for claim C2: the golden-ratio rung classifies as the first
rung label O(1) under a concrete leading-term oracle. -/
theorem c2_witness :
    extract_complexity (fun _ => none) (rungExpr 13) = rungLabel 0 :=
  c2_golden_rung.1 (fun _ => none)

/-- Claim C5: classification always produces a result by degrading
through the fixed chain: a constant expression reports O(1); otherwise
a successful ladder scan reports the matching rung label; otherwise a
successful log-ratio degree extraction reports the degree class;
otherwise the leading-term fallback reports, never raising (every
fallible engine call is modelled as an Option and every failure moves
to the next stage, so the function is total on all inputs and all
oracle behaviours). -/
theorem c5_classify_chain (lt : GrowthExpr → Option String) (g : GrowthExpr) :
    (g.isConstantB = true → extract_complexity lt g = "O(1)") ∧
    (g.isConstantB = false → ∀ lbl, scanLadder g = some lbl →
      extract_complexity lt g = lbl) ∧
    (g.isConstantB = false → scanLadder g = none → ∀ d, extractDegreeViaLimit g = some d →
      extract_complexity lt g = degreeLabel d) ∧
    (g.isConstantB = false → scanLadder g = none → extractDegreeViaLimit g = none →
      extract_complexity lt g = leadingTermFallback lt g) := by
  refine ⟨fun hc => ?_, fun hc lbl hs => ?_, fun hc hs d hd => ?_, fun hc hs hd => ?_⟩
  · simp [extract_complexity, hc]
  · simp [extract_complexity, hc, hs]
  · simp [extract_complexity, hc, hs, hd]
  · simp [extract_complexity, hc, hs, hd]

/-- Witness for claim C5 at the off-ladder polynomial n^5, which reaches
the degree-extraction stage and reports O(n^5). -/
theorem c5_witness :
    extract_complexity (fun _ => none) nFifthGrowth = degreeLabel 5 :=
  (c5_classify_chain (fun _ => none) nFifthGrowth).2.2.1
    (by with_unfolding_all decide) (by with_unfolding_all decide) 5
    (by with_unfolding_all decide)

/-- Claim C6: for a verify request whose solution parses and whose base
keys convert, verified_base_cases is true exactly when every declared
base index maps, after substitution into the candidate closed form and
simplification, to the declared value under exact equality; one
mismatch makes the flag false. -/
theorem c6_base_case_check (eng : Engine) (r : Request) (sol : ClosedForm)
    (init : List (ℤ × ℚ)) (hp : eng.parseC r.getSolution = .ok sol)
    (hb : convertBase r.getBaseVerify = .ok init) :
    ((verify_recurrence eng r).verified_base_cases = some true ↔
      ∀ p ∈ init, sol.val p.1 = QSqrt5.ofRat p.2) := by
  simp [verify_recurrence, hp, hb, List.all_eq_true]

/-- Witness for claim C6: the closed form n against the matching base
case T(2) = 2. -/
theorem c6_witness :
    (verify_recurrence engLin reqVerify2).verified_base_cases = some true :=
  (c6_base_case_check engLin reqVerify2 cfLin [(2, 2)] rfl
    (by with_unfolding_all rfl)).mpr (by with_unfolding_all decide)

/-- Counterexample to claim C7: a verify request with an EMPTY base-case
mapping nevertheless reports verified_base_cases = true, because the
loop over base cases runs zero times and the flag keeps its initial
True value; the at-least-one-entry requirement stated by the spec is
not enforced anywhere in verify_recurrence. -/
theorem c7_counterexample :
    (verify_recurrence engLin reqVerifyEmpty).verified_base_cases = some true := by
  with_unfolding_all decide

/-- Claim C7 as amended: a verify request whose base-case mapping is
empty reports a VACUOUSLY successful base-case verification
(verified_base_cases = true with no entries checked). -/
theorem c7_amended (eng : Engine) (r : Request) (sol : ClosedForm)
    (hp : eng.parseC r.getSolution = .ok sol) (he : r.getBaseVerify = []) :
    (verify_recurrence eng r).verified_base_cases = some true := by
  simp [verify_recurrence, hp, he, convertBase]

/-- Witness for amended claim C7, at a request with the base field
omitted (which the source defaults to the empty dict). -/
theorem c7_witness :
    (verify_recurrence engLin reqVerifyNoBase).verified_base_cases = some true :=
  c7_amended engLin reqVerifyNoBase cfLin rfl rfl

/-- Counterexample to claim C8 as stated: coefficients [1] (recurrence
T(n) = T(n-1), so the RECURRENCE order is 1 and the claimed trial window
is 2 .. 10), two declared base cases, and the step candidate whose only
nonvanishing residual sits at index 2.  The residual magnitude at the
claimed trial index order+1 = 2 exceeds 1e-10, so by the claim
verification must fail; the code instead sets order = len(init_conds)
= 2 (line 586), samples indices 3 .. 11 where every residual vanishes,
and verification passes. -/
theorem c8_counterexample :
    verify_solution_numerically solStep [1] zeroFunQ 2 = true ∧
    exceedsTol (residualAt solStep [1] zeroFunQ 2) = true := by
  with_unfolding_all decide

/-- Claim C8 as amended: the trial indices are order+1 through order+9
where order = len(init_conds) is the NUMBER OF DECLARED BASE CASES
(equal to the recurrence order only for an exactly determined solve).
When every coefficient at position order or beyond is zero — in
particular whenever there are at least as many base cases as
coefficients — verification fails exactly when a residual magnitude
exceeds 1e-10 at one of those indices, and no other index influences
the outcome; when some coefficient at position order or beyond is
nonzero, the substitution loop leaves an unevaluated T symbol and
verification always fails through the exception path. -/
theorem c8_numeric_verification (sol : ℤ → QSqrt5) (coeffs : List ℚ) (f : ℤ → QSqrt5)
    (initLen : ℕ) :
    ((coeffs.drop initLen).all (fun c => decide (c = 0)) = true →
      (verify_solution_numerically sol coeffs f initLen = false ↔
        ∃ j : ℕ, j < 9 ∧
          exceedsTol (residualAt sol coeffs f ((initLen : ℤ) + 1 + (j : ℤ))) = true)) ∧
    ((coeffs.drop initLen).all (fun c => decide (c = 0)) = false →
      verify_solution_numerically sol coeffs f initLen = false) := by
  constructor
  · intro hcov
    simp only [verify_solution_numerically, hcov, if_true, List.all_eq_false, List.mem_range,
      Bool.not_eq_true', Bool.not_eq_false]
  · intro hcov
    simp [verify_solution_numerically, hcov]

/-- Witness for amended claim C8: the candidate T(n) = n fails the
residual check against T(n) = T(n-1) with one base case and zero
driving term, since every sampled residual equals 1. -/
theorem c8_witness : verify_solution_numerically solIdQ [1] zeroFunQ 1 = false :=
  ((c8_numeric_verification solIdQ [1] zeroFunQ 1).1 (by with_unfolding_all decide)).mpr
    ⟨0, by norm_num, by with_unfolding_all decide⟩

/-- Claim C9 (code bug): a linear request whose base-case mapping
carries the non-numeric key x makes int() raise at lines 117 to 120 of
solve_linear_recurrence, which sit outside every try block, so the
ValueError escapes the handler and main instead of being returned as a
structured failure response; this holds for every engine whose parser
accepts the driving term 0. -/
theorem c9_uncaught (eng : Engine) (fn : ClosedForm) (hp : eng.parseC "0" = .ok fn) :
    mainDispatch eng reqBadBase =
      .error ("ValueError: invalid literal for int with base 10: x") := by
  have hx : pyIntOfString "x" = none := by with_unfolding_all decide
  simp [mainDispatch, reqBadBase, Request.getType, Request.getFnLin, Request.getBaseLin,
    solve_linear_recurrence, hp, convertBase, hx]

/-- Witness for claim C9 under a concrete engine. -/
theorem c9_witness :
    mainDispatch engLin reqBadBase =
      .error ("ValueError: invalid literal for int with base 10: x") :=
  c9_uncaught engLin cfLin rfl

/-- Claim C10: omitted fields take fixed defaults: a request with no
type field dispatches to the linear solver; a linear request defaults
to coefficients [1], base cases mapping key 0 to 0, and driving term
string 0; a divide-and-conquer request defaults to a = 2, b = 2 and
driving term string n. -/
theorem c10_defaults :
    reqEmpty.getType = "linear" ∧
    (∀ eng, mainDispatch eng reqEmpty = solve_linear_recurrence eng reqEmpty) ∧
    reqEmpty.getCoeffs = [1] ∧ reqEmpty.getBaseLin = [("0", 0)] ∧
    reqEmpty.getFnLin = "0" ∧ reqEmpty.getA = 2 ∧ reqEmpty.getB = 2 ∧
    reqEmpty.getFnDC = "n" :=
  ⟨rfl, fun _ => rfl, rfl, rfl, rfl, rfl, rfl, rfl⟩

/-- Witness for claim C10 under a concrete engine. -/
theorem c10_witness :
    mainDispatch engLin reqEmpty = solve_linear_recurrence engLin reqEmpty :=
  c10_defaults.2.1 engLin

theorem QSqrt5.eq_of_parts {x y : QSqrt5} (h1 : x.a = y.a) (h2 : x.b = y.b) : x = y := by
  cases x
  cases y
  cases h1
  cases h2
  rfl

theorem QSqrt5.add_a (x y : QSqrt5) : (x + y).a = x.a + y.a := rfl

theorem QSqrt5.add_b (x y : QSqrt5) : (x + y).b = x.b + y.b := rfl

theorem QSqrt5.mul_a (x y : QSqrt5) : (x * y).a = x.a * y.a + 5 * (x.b * y.b) := rfl

theorem QSqrt5.mul_b (x y : QSqrt5) : (x * y).b = x.a * y.b + x.b * y.a := rfl

theorem QSqrt5.sub_a (x y : QSqrt5) : (x - y).a = x.a - y.a := rfl

theorem QSqrt5.sub_b (x y : QSqrt5) : (x - y).b = x.b - y.b := rfl

theorem QSqrt5.one_a : (1 : QSqrt5).a = 1 := rfl

theorem QSqrt5.one_b : (1 : QSqrt5).b = 0 := rfl

theorem QSqrt5.addMulRight (x y z : QSqrt5) : (x + y) * z = x * z + y * z := by
  apply QSqrt5.eq_of_parts <;>
    simp only [QSqrt5.add_a, QSqrt5.add_b, QSqrt5.mul_a, QSqrt5.mul_b] <;> ring

theorem QSqrt5.subMulRight (x y z : QSqrt5) : (x - y) * z = x * z - y * z := by
  apply QSqrt5.eq_of_parts <;>
    simp only [QSqrt5.sub_a, QSqrt5.sub_b, QSqrt5.mul_a, QSqrt5.mul_b] <;> ring

theorem QSqrt5.mulAssoc (x y z : QSqrt5) : x * y * z = x * (y * z) := by
  apply QSqrt5.eq_of_parts <;>
    simp only [QSqrt5.mul_a, QSqrt5.mul_b] <;> ring

theorem QSqrt5.oneMul (x : QSqrt5) : 1 * x = x := by
  apply QSqrt5.eq_of_parts <;>
    simp only [QSqrt5.mul_a, QSqrt5.mul_b, QSqrt5.one_a, QSqrt5.one_b] <;> ring

theorem QSqrt5.ofRat_add (p q : ℚ) :
    QSqrt5.ofRat (p + q) = QSqrt5.ofRat p + QSqrt5.ofRat q := by
  apply QSqrt5.eq_of_parts <;> simp [QSqrt5.ofRat, QSqrt5.add_a, QSqrt5.add_b]

theorem QSqrt5.pow_succ_eq (x : QSqrt5) (n : ℕ) : x ^ (n + 1) = x * x ^ n := rfl

/-- The golden ratio and its conjugate both satisfy t^2 = t + 1. -/
theorem phiQ_psiQ_sq : phiQ * phiQ = phiQ + 1 ∧ psiQ * psiQ = psiQ + 1 := by
  with_unfolding_all decide

/-- Two-step recurrence satisfied by the Binet expression. -/
theorem binetQ_rec (n : ℕ) : binetQ (n + 2) = binetQ (n + 1) + binetQ n := by
  have hstep : ∀ x : QSqrt5, x * x = x + 1 → x ^ (n + 2) = x ^ (n + 1) + x ^ n := by
    intro x hx
    have h1 : x ^ (n + 2) = x * x * x ^ n := by
      rw [QSqrt5.pow_succ_eq, QSqrt5.pow_succ_eq, ← QSqrt5.mulAssoc]
    rw [h1, hx, QSqrt5.addMulRight, QSqrt5.oneMul, QSqrt5.pow_succ_eq]
  have hphi := hstep phiQ phiQ_psiQ_sq.1
  have hpsi := hstep psiQ phiQ_psiQ_sq.2
  show (phiQ ^ (n + 2) - psiQ ^ (n + 2)) * invSqrt5Q = _
  rw [hphi, hpsi]
  have hcomb : ∀ A B C D k : QSqrt5, (A + B - (C + D)) * k = (A - C) * k + (B - D) * k := by
    intro A B C D k
    apply QSqrt5.eq_of_parts <;>
      simp only [QSqrt5.add_a, QSqrt5.add_b, QSqrt5.sub_a, QSqrt5.sub_b, QSqrt5.mul_a,
        QSqrt5.mul_b] <;> ring
  exact hcomb _ _ _ _ _

/-- The Binet closed form modelled for claim C1 agrees with the
Fibonacci numbers at every index, i.e. it is the unique solution of the
recurrence with base cases T(0) = 0, T(1) = 1 that rsolve returns. -/
theorem binetQ_eq_fib : ∀ n : ℕ, binetQ n = QSqrt5.ofRat (Nat.fib n) := by
  intro n
  induction n using Nat.strong_induction_on with
  | _ n ih =>
    match n with
    | 0 => with_unfolding_all decide
    | 1 => with_unfolding_all decide
    | m + 2 =>
      rw [binetQ_rec, ih (m + 1) (by omega), ih m (by omega), Nat.fib_add_two]
      push_cast
      rw [QSqrt5.ofRat_add]
      exact QSqrt5.eq_of_parts (by simp [QSqrt5.add_a]; ring) (by simp [QSqrt5.add_b]; ring)

/-- Correctness of the sign procedure behind every comparison in the
limit model: isPos decides strict positivity of the real number
a + b * sqrt 5 the element denotes. -/
theorem QSqrt5.isPos_correct (x : QSqrt5) : x.isPos = true ↔ 0 < x.toReal := by
  have s5pos : (0 : ℝ) < Real.sqrt 5 := Real.sqrt_pos.mpr (by norm_num)
  have s5sq : Real.sqrt 5 * Real.sqrt 5 = 5 := Real.mul_self_sqrt (by norm_num)
  unfold QSqrt5.isPos QSqrt5.toReal
  rcases lt_trichotomy x.b 0 with hb | hb | hb
  · rw [if_neg (ne_of_lt hb), if_neg (not_lt.mpr (le_of_lt hb)), Bool.and_eq_true,
      decide_eq_true_iff, decide_eq_true_iff]
    have hbR : (x.b : ℝ) < 0 := by exact_mod_cast hb
    constructor
    · rintro ⟨hpa, hlt⟩
      have haR : (0 : ℝ) < (x.a : ℝ) := by exact_mod_cast hpa
      have hsq : (-((x.b : ℝ) * Real.sqrt 5)) ^ 2 < (x.a : ℝ) ^ 2 := by
        have h5 : ((5 * (x.b * x.b) : ℚ) : ℝ) < ((x.a * x.a : ℚ) : ℝ) := by exact_mod_cast hlt
        push_cast at h5
        nlinarith [s5sq]
      have hnb : (0 : ℝ) ≤ -((x.b : ℝ) * Real.sqrt 5) := by nlinarith
      have hfin := (pow_lt_pow_iff_left₀ hnb (le_of_lt haR) (two_ne_zero)).mp hsq
      linarith
    · intro hpos
      have hnb : (0 : ℝ) < -((x.b : ℝ) * Real.sqrt 5) := by nlinarith
      have haR : (0 : ℝ) < (x.a : ℝ) := by linarith
      refine ⟨by exact_mod_cast haR, ?_⟩
      have h1 : -((x.b : ℝ) * Real.sqrt 5) < (x.a : ℝ) := by linarith
      have hsq := pow_lt_pow_left₀ h1 (le_of_lt hnb) (two_ne_zero)
      have hc : ((5 * (x.b * x.b) : ℚ) : ℝ) < ((x.a * x.a : ℚ) : ℝ) := by
        push_cast
        nlinarith [s5sq]
      exact_mod_cast hc
  · rw [if_pos hb, decide_eq_true_iff, hb]
    push_cast
    constructor
    · intro h
      have : (0 : ℝ) < (x.a : ℝ) := by exact_mod_cast h
      linarith
    · intro h
      have : (0 : ℝ) < (x.a : ℝ) := by linarith
      exact_mod_cast this
  · rw [if_neg (ne_of_gt hb), if_pos hb, Bool.or_eq_true, decide_eq_true_iff,
      decide_eq_true_iff]
    have hbR : (0 : ℝ) < (x.b : ℝ) := by exact_mod_cast hb
    have hq : (0 : ℝ) < (x.b : ℝ) * Real.sqrt 5 := mul_pos hbR s5pos
    constructor
    · rintro (ha | hlt)
      · have : (0 : ℝ) ≤ (x.a : ℝ) := by exact_mod_cast ha
        linarith
      · have hsq : (x.a : ℝ) ^ 2 < ((x.b : ℝ) * Real.sqrt 5) ^ 2 := by
          have h5 : ((x.a * x.a : ℚ) : ℝ) < ((5 * (x.b * x.b) : ℚ) : ℝ) := by exact_mod_cast hlt
          push_cast at h5
          nlinarith [s5sq]
        have habs : |(x.a : ℝ)| < (x.b : ℝ) * Real.sqrt 5 := by
          have h2 : |(x.a : ℝ)| ^ 2 < ((x.b : ℝ) * Real.sqrt 5) ^ 2 := by rwa [sq_abs]
          exact (pow_lt_pow_iff_left₀ (abs_nonneg _) (le_of_lt hq) (two_ne_zero)).mp h2
      
        have hab := abs_lt.mp habs
        linarith [hab.1]
    · intro hpos
      by_cases ha : (0 : ℚ) ≤ x.a
      · exact Or.inl ha
      · right
        push_neg at ha
        have haR : (x.a : ℝ) < 0 := by exact_mod_cast ha
        have h1 : -(x.a : ℝ) < (x.b : ℝ) * Real.sqrt 5 := by linarith
        have hsq := pow_lt_pow_left₀ h1 (by linarith) (two_ne_zero)
        have hc : ((x.a * x.a : ℚ) : ℝ) < ((5 * (x.b * x.b) : ℚ) : ℝ) := by
          push_cast
          nlinarith [s5sq]
        exact_mod_cast hc

/-- The element phiQ denotes the golden ratio (1 + sqrt 5) / 2. -/
theorem phiQ_toReal : phiQ.toReal = (1 + Real.sqrt 5) / 2 := by
  unfold QSqrt5.toReal phiQ
  push_cast
  ring
